import Mathlib

/-
  Verification of the banking demo `src/script.js` (Observer / Strategy /
  Command patterns around a toy in-memory bank).

  Embedding conventions:
  * JS numbers are modelled as rationals (ℚ); the arithmetic here never
    depends on float rounding.
  * A JS method that can `throw` is modelled as returning
    `Except String Unit × σ` where σ is the mutated state: the first
    component is the normal/exceptional outcome (with the error message),
    the second is the state after the call.  Mutations performed before a
    throw persist, exactly as in JS.
  * The global `accounts` Map (id → Account) is modelled as a
    `List Account` with first-match lookup (`findAcct`) and first-match
    replacement (`replaceAcct`); `Map.set` of a fresh id appends.
  * The Observer machinery (`AccountSubject.notify`, toasts, DOM
    rendering) only writes to the UI and never touches balances or the
    command stack, so it is not part of the state.
-/

/-- An account record: `class Account` in script.js (lines 68-105).
`type` is one of "savings" | "fixed" | "current". -/
structure Account where
  id : Nat
  owner : String
  type : String
  balance : ℚ
  deriving Repr, DecidableEq

/-- `Account.deposit` (script.js lines 78-82):
throws "Amount must be > 0" when `amount <= 0`, otherwise adds `amount`. -/
def Account.deposit (a : Account) (amount : ℚ) : Except String Unit × Account :=
  if amount ≤ 0 then (Except.error "Amount must be > 0", a)
  else (Except.ok (), { a with balance := a.balance + amount })

/-- `Account.withdraw` (script.js lines 84-89):
throws "Amount must be > 0" when `amount <= 0`, then "Insufficient funds"
when `amount > this.balance`, otherwise subtracts `amount`. -/
def Account.withdraw (a : Account) (amount : ℚ) : Except String Unit × Account :=
  if amount ≤ 0 then (Except.error "Amount must be > 0", a)
  else if amount > a.balance then (Except.error "Insufficient funds", a)
  else (Except.ok (), { a with balance := a.balance - amount })

/-- `Account.transferTo` (script.js lines 91-98): same-account guard, then
`this.withdraw(amount)`, then `targetAccount.deposit(amount)`.  An exception
from a later step leaves the mutations of earlier steps in place. -/
def Account.transferTo (a target : Account) (amount : ℚ) :
    Except String Unit × Account × Account :=
  if a.id = target.id then (Except.error "Cannot transfer to same account", a, target)
  else
    match a.withdraw amount with
    | (Except.error e, a1) => (Except.error e, a1, target)
    | (Except.ok _, a1) =>
      match target.deposit amount with
      | (Except.error e, t1) => (Except.error e, a1, t1)
      | (Except.ok _, t1) => (Except.ok (), a1, t1)

/-- `Account.applyInterest` (script.js lines 100-104): adds
`strategy.calculate(this.balance)` to the balance.  The strategy is
modelled by its `calculate` function. -/
def Account.applyInterest (a : Account) (calculate : ℚ → ℚ) : Account :=
  { a with balance := a.balance + calculate a.balance }

/-- Base `InterestStrategy.calculate` (script.js line 54). -/
def InterestStrategy.calculate (balance : ℚ) : ℚ := 0

/-- `SavingsInterest.calculate` (script.js line 58): 4%. -/
def SavingsInterest.calculate (balance : ℚ) : ℚ := balance * 0.04

/-- `FixedInterest.calculate` (script.js line 61): 7%. -/
def FixedInterest.calculate (balance : ℚ) : ℚ := balance * 0.07

/-- `CurrentInterest.calculate` (script.js line 64): 0.5%. -/
def CurrentInterest.calculate (balance : ℚ) : ℚ := balance * 0.005

/-- The strategy the `apply-interest` handler picks for an account type
(script.js lines 393-396): default base strategy, overridden for
"savings", "fixed", "current". -/
def strategyFor (type : String) : ℚ → ℚ :=
  if type = "savings" then SavingsInterest.calculate
  else if type = "fixed" then FixedInterest.calculate
  else if type = "current" then CurrentInterest.calculate
  else InterestStrategy.calculate

/-- Lookup in the `accounts` Map (script.js line 168): first account with
the given id. -/
def findAcct (i : Nat) (l : List Account) : Option Account :=
  l.find? (fun a => a.id = i)

/-- Replace the first account whose id is `i` by `x`; models mutating the
single object stored in the Map under key `i`. -/
def replaceAcct (i : Nat) (x : Account) : List Account → List Account
  | [] => []
  | a :: l => if a.id = i then x :: l else a :: replaceAcct i x l

/-- `DepositCommand.execute` / `WithdrawCommand.undo` acting on the
account map: mutate the account stored under `i` by `deposit`.
(A missing id would make JS throw a TypeError on the `undefined`
receiver; the UI only offers existing ids.) -/
def depositSt (i : Nat) (amount : ℚ) (l : List Account) :
    Except String Unit × List Account :=
  match findAcct i l with
  | none => (Except.error "account is undefined", l)
  | some a =>
    match a.deposit amount with
    | (Except.error e, _) => (Except.error e, l)
    | (Except.ok _, a1) => (Except.ok (), replaceAcct i a1 l)

/-- `WithdrawCommand.execute` / `DepositCommand.undo` acting on the
account map. -/
def withdrawSt (i : Nat) (amount : ℚ) (l : List Account) :
    Except String Unit × List Account :=
  match findAcct i l with
  | none => (Except.error "account is undefined", l)
  | some a =>
    match a.withdraw amount with
    | (Except.error e, _) => (Except.error e, l)
    | (Except.ok _, a1) => (Except.ok (), replaceAcct i a1 l)

/-- `TransferCommand.execute`: `fromAcc.transferTo(toAcc, amount)` on the
account map, writing back both (possibly mutated) objects. -/
def transferSt (fromId toId : Nat) (amount : ℚ) (l : List Account) :
    Except String Unit × List Account :=
  match findAcct fromId l, findAcct toId l with
  | some a, some t =>
    match a.transferTo t amount with
    | (r, a1, t1) => (r, replaceAcct toId t1 (replaceAcct fromId a1 l))
  | _, _ => (Except.error "account is undefined", l)

/-- The three concrete commands (script.js lines 117-165).  A JS command
object holds references to the `Account` objects of the Map; since the Map
is keyed by id and ids are never reused before a full reset, holding the
ids is equivalent. -/
inductive Command where
  | deposit (accountId : Nat) (amount : ℚ)
  | withdraw (accountId : Nat) (amount : ℚ)
  | transfer (fromId toId : Nat) (amount : ℚ)
  deriving Repr, DecidableEq

/-- `execute()` of each command (script.js lines 123-125, 139-141,
156-158). -/
def Command.execute : Command → List Account → Except String Unit × List Account
  | Command.deposit i amount, l => depositSt i amount l
  | Command.withdraw i amount, l => withdrawSt i amount l
  | Command.transfer f t amount, l => transferSt f t amount l

/-- `undo()` of each command (script.js lines 126-130, 142-146, 159-164):
deposit undoes by withdrawing, withdraw by depositing; transfer undoes by
`toAcc.withdraw(amount)` then `fromAcc.deposit(amount)`, an exception
propagating after earlier mutations. -/
def Command.undo : Command → List Account → Except String Unit × List Account
  | Command.deposit i amount, l => withdrawSt i amount l
  | Command.withdraw i amount, l => depositSt i amount l
  | Command.transfer f t amount, l =>
    match withdrawSt t amount l with
    | (Except.error e, l1) => (Except.error e, l1)
    | (Except.ok _, l1) => depositSt f amount l1

/-- The mutable app state (script.js lines 167-170): the `accounts` Map,
the `commandStack` (head of the list = top of the stack) and the
`nextAcctId` counter. -/
structure AppState where
  accounts : List Account
  commandStack : List Command
  nextAcctId : Nat
  deriving Repr, DecidableEq

/-- `executeCommand` (script.js lines 305-314): run `cmd.execute()`; on
normal return push the command onto the stack; an exception is caught and
only shown as a notification (the stack is untouched, mutations made
before the throw persist). -/
def executeCommand (c : Command) (s : AppState) : AppState :=
  match c.execute s.accounts with
  | (Except.ok _, l1) => { s with accounts := l1, commandStack := c :: s.commandStack }
  | (Except.error _, l1) => { s with accounts := l1 }

/-- The `cmd-undo` click handler (script.js lines 375-386): an empty stack
only shows a toast; otherwise the top command is popped and its `undo()`
is run inside try/catch (the pop happens before the try, so the command
stays popped even if `undo()` throws). -/
def cmdUndo (s : AppState) : AppState :=
  match s.commandStack with
  | [] => s
  | last :: rest =>
    match last.undo s.accounts with
    | (_, l1) => { s with accounts := l1, commandStack := rest }

/-- The `create-acct` click handler (script.js lines 328-341): an empty
name only shows a toast; otherwise a fresh account with id `nextAcctId++`
is added to the Map.  `bal` models `parseFloat($('acct-balance').value) || 0`:
any finite number the user typed, 0 for empty/invalid input; negative
inputs pass through unchecked. -/
def createAcct (name type_ : String) (bal : ℚ) (s : AppState) : AppState :=
  if name = "" then s
  else
    { accounts := s.accounts ++ [{ id := s.nextAcctId, owner := name, type := type_, balance := bal }],
      commandStack := s.commandStack,
      nextAcctId := s.nextAcctId + 1 }

/-- The `apply-interest` click handler (script.js lines 389-400): pick the
strategy by the account's type and apply it. -/
def applyInterestOn (i : Nat) (s : AppState) : AppState :=
  match findAcct i s.accounts with
  | none => s
  | some a =>
    { s with accounts := replaceAcct i (a.applyInterest (strategyFor a.type)) s.accounts }

/-- One public user operation (the operations quantified over by the
balance invariant): account creation, a deposit/withdraw/transfer command
run through `executeCommand`, applying interest, or undo. -/
inductive Op where
  | create (name type_ : String) (bal : ℚ)
  | command (c : Command)
  | interest (i : Nat)
  | undo
  deriving Repr, DecidableEq

/-- Effect of one public operation on the app state. -/
def step : Op → AppState → AppState
  | Op.create name type_ bal, s => createAcct name type_ bal s
  | Op.command c, s => executeCommand c s
  | Op.interest i, s => applyInterestOn i s
  | Op.undo, s => cmdUndo s

/-- Run a sequence of public operations. -/
def run (ops : List Op) (s : AppState) : AppState :=
  ops.foldl (fun s o => step o s) s

/-- The initial app state (script.js lines 168-170). -/
def initState : AppState :=
  { accounts := [], commandStack := [], nextAcctId := 1001 }

/-- An `Op.create` with a non-negative initial balance (any other
operation trivially satisfies this). -/
def Op.createNonneg : Op → Prop
  | Op.create _ _ bal => 0 ≤ bal
  | _ => True

instance : DecidablePred Op.createNonneg := fun o => by
  cases o <;> simp only [Op.createNonneg] <;> infer_instance

/-- Spec-side definition for the refinement claim about `transferTo`: the
sequence "withdraw(amount) on the source followed by deposit(amount) on
the target" ("transfer is withdraw+deposit"), with the usual exception
semantics: an exception propagates and mutations made before it persist. -/
def withdrawThenDeposit (a target : Account) (amount : ℚ) :
    Except String Unit × Account × Account :=
  match a.withdraw amount with
  | (Except.error e, a1) => (Except.error e, a1, target)
  | (Except.ok _, a1) =>
    match target.deposit amount with
    | (Except.error e, t1) => (Except.error e, a1, t1)
    | (Except.ok _, t1) => (Except.ok (), a1, t1)

/-- The balance stored under id `i`, if any. -/
def balanceAt (i : Nat) (l : List Account) : Option ℚ :=
  (findAcct i l).map Account.balance

/-- Every account in the map has a non-negative balance. -/
def allBalancesNonneg (l : List Account) : Prop :=
  ∀ a ∈ l, 0 ≤ a.balance

instance : DecidablePred allBalancesNonneg := fun l => by
  unfold allBalancesNonneg; infer_instance

/- ======================  Lemmas  ====================== -/

theorem findAcct_id {i : Nat} {l : List Account} {a : Account}
    (h : findAcct i l = some a) : a.id = i := by
  have := List.find?_some h
  simpa using this

theorem findAcct_mem {i : Nat} {l : List Account} {a : Account}
    (h : findAcct i l = some a) : a ∈ l :=
  List.mem_of_find?_eq_some h

theorem findAcct_replace_self {i : Nat} {l : List Account} {a x : Account}
    (hx : x.id = i) (h : findAcct i l = some a) :
    findAcct i (replaceAcct i x l) = some x := by
  induction l with
  | nil => simp [findAcct] at h
  | cons b l ih =>
    by_cases hb : b.id = i
    · simp only [replaceAcct, if_pos hb, findAcct]
      rw [List.find?_cons_of_pos _ (by simp [hx])]
    · simp only [findAcct, replaceAcct, if_neg hb] at h ⊢
      rw [List.find?_cons_of_neg _ (by simp [hb])] at h
      rw [List.find?_cons_of_neg _ (by simp [hb])]
      exact ih h

theorem findAcct_replace_other {i j : Nat} {l : List Account} {x : Account}
    (hij : j ≠ i) (hx : x.id = j) :
    findAcct i (replaceAcct j x l) = findAcct i l := by
  induction l with
  | nil => simp [replaceAcct]
  | cons b l ih =>
    by_cases hb : b.id = j
    · have hbi : ¬ b.id = i := by rw [hb]; exact hij
      have hxi : ¬ x.id = i := by rw [hx]; exact hij
      simp only [replaceAcct, if_pos hb, findAcct]
      rw [List.find?_cons_of_neg _ (by simp [hxi]),
        List.find?_cons_of_neg _ (by simp [hbi])]
    · by_cases hbi : b.id = i
      · simp only [replaceAcct, if_neg hb, findAcct]
        rw [List.find?_cons_of_pos _ (by simp [hbi]),
          List.find?_cons_of_pos _ (by simp [hbi])]
      · simp only [replaceAcct, if_neg hb, findAcct] at ih ⊢
        rw [List.find?_cons_of_neg _ (by simp [hbi]),
          List.find?_cons_of_neg _ (by simp [hbi])]
        exact ih

theorem replaceAcct_replace_self {i : Nat} {l : List Account} {x y : Account}
    (hy : y.id = i) :
    replaceAcct i x (replaceAcct i y l) = replaceAcct i x l := by
  induction l with
  | nil => simp [replaceAcct]
  | cons b l ih =>
    by_cases hb : b.id = i
    · simp [replaceAcct, hb, hy]
    · simp [replaceAcct, hb, ih]

theorem replaceAcct_comm {i j : Nat} {l : List Account} {x y : Account}
    (hij : i ≠ j) (hx : x.id = i) (hy : y.id = j) :
    replaceAcct i x (replaceAcct j y l) = replaceAcct j y (replaceAcct i x l) := by
  induction l with
  | nil => simp [replaceAcct]
  | cons b l ih =>
    by_cases hbj : b.id = j
    · have hbi : ¬ b.id = i := by rw [hbj]; exact fun h => hij h.symm
      have hyi : ¬ y.id = i := by rw [hy]; exact fun h => hij h.symm
      simp only [replaceAcct, if_pos hbj, if_neg hbi, if_neg hyi, if_pos hbj]
    · by_cases hbi : b.id = i
      · have hxj : ¬ x.id = j := by rw [hx]; exact hij
        simp only [replaceAcct, if_neg hbj, if_pos hbi, if_neg hxj, if_pos hbi]
      · simp only [replaceAcct, if_neg hbj, if_neg hbi, ih]

theorem replaceAcct_find_self {i : Nat} {l : List Account} {a : Account}
    (h : findAcct i l = some a) : replaceAcct i a l = l := by
  induction l with
  | nil => simp [replaceAcct]
  | cons b l ih =>
    by_cases hb : b.id = i
    · simp only [findAcct, List.find?_cons, decide_eq_true_eq, hb, if_true] at h
      cases h
      simp [replaceAcct, hb]
    · simp only [findAcct, List.find?_cons, decide_eq_true_eq, hb, if_false] at h
      simp [replaceAcct, hb, ih h]

theorem mem_replaceAcct {i : Nat} {l : List Account} {x b : Account}
    (h : b ∈ replaceAcct i x l) : b ∈ l ∨ b = x := by
  induction l with
  | nil => simp [replaceAcct] at h
  | cons c l ih =>
    by_cases hc : c.id = i
    · simp only [replaceAcct, hc, if_true, List.mem_cons] at h
      rcases h with h | h
      · right; exact h
      · left; exact List.mem_cons_of_mem _ h
    · simp only [replaceAcct, hc, if_false, List.mem_cons] at h
      rcases h with h | h
      · left; simp [h]
      · rcases ih h with h | h
        · left; exact List.mem_cons_of_mem _ h
        · right; exact h

theorem Account.setBalance_self (a : Account) :
    ({ a with balance := a.balance } : Account) = a := by
  cases a; rfl

theorem Account.setBalance_eq (a : Account) (x : ℚ) (h : x = a.balance) :
    ({ a with balance := x } : Account) = a := by
  cases a; cases h; rfl

theorem Account.setBalance_setBalance (a : Account) (x y : ℚ) :
    ({ ({ a with balance := x } : Account) with balance := y } : Account) =
      { a with balance := y } := rfl

theorem Account.deposit_pos {a : Account} {amount : ℚ} (h : 0 < amount) :
    a.deposit amount = (Except.ok (), { a with balance := a.balance + amount }) := by
  unfold Account.deposit
  rw [if_neg (by linarith)]

theorem Account.deposit_nonpos {a : Account} {amount : ℚ} (h : amount ≤ 0) :
    a.deposit amount = (Except.error "Amount must be > 0", a) := by
  unfold Account.deposit
  rw [if_pos h]

theorem Account.withdraw_ok {a : Account} {amount : ℚ}
    (h1 : 0 < amount) (h2 : amount ≤ a.balance) :
    a.withdraw amount = (Except.ok (), { a with balance := a.balance - amount }) := by
  unfold Account.withdraw
  rw [if_neg (by linarith), if_neg (not_lt.mpr h2)]

theorem Account.withdraw_nonpos {a : Account} {amount : ℚ} (h : amount ≤ 0) :
    a.withdraw amount = (Except.error "Amount must be > 0", a) := by
  unfold Account.withdraw
  rw [if_pos h]

theorem Account.withdraw_insufficient {a : Account} {amount : ℚ}
    (h1 : 0 < amount) (h2 : a.balance < amount) :
    a.withdraw amount = (Except.error "Insufficient funds", a) := by
  unfold Account.withdraw
  rw [if_neg (by linarith), if_pos h2]

theorem Account.transferTo_same {a t : Account} {amount : ℚ} (hid : a.id = t.id) :
    a.transferTo t amount = (Except.error "Cannot transfer to same account", a, t) := by
  unfold Account.transferTo
  rw [if_pos hid]

theorem Account.transferTo_nonpos {a t : Account} {amount : ℚ}
    (hid : ¬ a.id = t.id) (h : amount ≤ 0) :
    a.transferTo t amount = (Except.error "Amount must be > 0", a, t) := by
  unfold Account.transferTo
  rw [if_neg hid, Account.withdraw_nonpos h]

theorem Account.transferTo_insufficient {a t : Account} {amount : ℚ}
    (hid : ¬ a.id = t.id) (h1 : 0 < amount) (h2 : a.balance < amount) :
    a.transferTo t amount = (Except.error "Insufficient funds", a, t) := by
  unfold Account.transferTo
  rw [if_neg hid, Account.withdraw_insufficient h1 h2]

theorem Account.transferTo_ok {a t : Account} {amount : ℚ}
    (hid : ¬ a.id = t.id) (hpos : 0 < amount) (hbal : amount ≤ a.balance) :
    a.transferTo t amount =
      (Except.ok (), { a with balance := a.balance - amount },
        { t with balance := t.balance + amount }) := by
  unfold Account.transferTo
  rw [if_neg hid, Account.withdraw_ok hpos hbal]
  dsimp only
  rw [Account.deposit_pos hpos]

theorem depositSt_of {i : Nat} {amount : ℚ} {l : List Account} {a : Account}
    (hf : findAcct i l = some a) (hpos : 0 < amount) :
    depositSt i amount l =
      (Except.ok (), replaceAcct i { a with balance := a.balance + amount } l) := by
  unfold depositSt
  rw [hf]
  dsimp only
  rw [Account.deposit_pos hpos]

theorem withdrawSt_of {i : Nat} {amount : ℚ} {l : List Account} {a : Account}
    (hf : findAcct i l = some a) (hpos : 0 < amount) (hbal : amount ≤ a.balance) :
    withdrawSt i amount l =
      (Except.ok (), replaceAcct i { a with balance := a.balance - amount } l) := by
  unfold withdrawSt
  rw [hf]
  dsimp only
  rw [Account.withdraw_ok hpos hbal]

theorem transferSt_of {f t : Nat} {amount : ℚ} {l : List Account} {a b : Account}
    (hf : findAcct f l = some a) (ht : findAcct t l = some b) (hft : f ≠ t)
    (hpos : 0 < amount) (hbal : amount ≤ a.balance) :
    transferSt f t amount l =
      (Except.ok (),
        replaceAcct t { b with balance := b.balance + amount }
          (replaceAcct f { a with balance := a.balance - amount } l)) := by
  have hid : ¬ a.id = b.id := by
    rw [findAcct_id hf, findAcct_id ht]; exact hft
  unfold transferSt
  rw [hf, ht]
  dsimp only
  rw [Account.transferTo_ok hid hpos hbal]

theorem depositSt_ok_elim {i : Nat} {amount : ℚ} {l : List Account}
    (h : (depositSt i amount l).1 = Except.ok ()) :
    ∃ a, findAcct i l = some a ∧ 0 < amount := by
  unfold depositSt at h
  cases hf : findAcct i l with
  | none => rw [hf] at h; simp at h
  | some a =>
    rw [hf] at h
    dsimp only at h
    by_cases hpos : 0 < amount
    · exact ⟨a, rfl, hpos⟩
    · rw [Account.deposit_nonpos (by linarith)] at h
      simp at h

theorem withdrawSt_ok_elim {i : Nat} {amount : ℚ} {l : List Account}
    (h : (withdrawSt i amount l).1 = Except.ok ()) :
    ∃ a, findAcct i l = some a ∧ 0 < amount ∧ amount ≤ a.balance := by
  unfold withdrawSt at h
  cases hf : findAcct i l with
  | none => rw [hf] at h; simp at h
  | some a =>
    rw [hf] at h
    dsimp only at h
    by_cases hpos : 0 < amount
    · by_cases hbal : amount ≤ a.balance
      · exact ⟨a, rfl, hpos, hbal⟩
      · rw [Account.withdraw_insufficient hpos (not_le.mp hbal)] at h
        simp at h
    · rw [Account.withdraw_nonpos (by linarith)] at h
      simp at h

theorem transferSt_ok_elim {f t : Nat} {amount : ℚ} {l : List Account}
    (h : (transferSt f t amount l).1 = Except.ok ()) :
    ∃ a b, findAcct f l = some a ∧ findAcct t l = some b ∧ f ≠ t ∧
      0 < amount ∧ amount ≤ a.balance := by
  unfold transferSt at h
  cases hf : findAcct f l with
  | none => rw [hf] at h; simp at h
  | some a =>
    cases ht : findAcct t l with
    | none => rw [hf, ht] at h; simp at h
    | some b =>
      rw [hf, ht] at h
      dsimp only at h
      by_cases hid : a.id = b.id
      · rw [Account.transferTo_same hid] at h
        simp at h
      · have hft : f ≠ t := by
          rw [← findAcct_id hf, ← findAcct_id ht]; exact hid
        by_cases hpos : 0 < amount
        · by_cases hbal : amount ≤ a.balance
          · exact ⟨a, b, rfl, rfl, hft, hpos, hbal⟩
          · rw [Account.transferTo_insufficient hid hpos (not_le.mp hbal)] at h
            simp at h
        · rw [Account.transferTo_nonpos hid (by linarith)] at h
          simp at h

/- ======================  Claim theorems  ====================== -/

/-- Claim C3: for accounts with distinct ids, `transferTo(target, amount)`
is exactly the sequence withdraw(amount) on the source followed by
deposit(amount) on the target: it succeeds precisely when the sequence
succeeds and produces the same pair of account states. -/
theorem C3_transferTo_refines (a t : Account) (amount : ℚ) (h : a.id ≠ t.id) :
    a.transferTo t amount = withdrawThenDeposit a t amount := by
  unfold Account.transferTo withdrawThenDeposit
  rw [if_neg h]

/-- Witness for C3 at two concrete accounts and amount 3. -/
theorem C3_transferTo_refines_witness :
    ({ id := 1, owner := "A", type := "savings", balance := 10 } : Account).id ≠
        ({ id := 2, owner := "B", type := "current", balance := 4 } : Account).id ∧
      Account.transferTo { id := 1, owner := "A", type := "savings", balance := 10 }
          { id := 2, owner := "B", type := "current", balance := 4 } 3 =
        withdrawThenDeposit { id := 1, owner := "A", type := "savings", balance := 10 }
          { id := 2, owner := "B", type := "current", balance := 4 } 3 :=
  ⟨by decide, C3_transferTo_refines _ _ 3 (by decide)⟩

/-- Claim C4: for positive amounts, `withdraw` throws "Insufficient funds"
exactly when the amount exceeds the current balance; whenever `withdraw`
throws (insufficient funds or non-positive amount) the account is
unchanged; otherwise the balance decreases by exactly the amount. -/
theorem C4_withdraw_spec (a : Account) (amount : ℚ) :
    (0 < amount →
      (((a.withdraw amount).1 = Except.error "Insufficient funds" ↔ a.balance < amount) ∧
        (amount ≤ a.balance →
          (a.withdraw amount).1 = Except.ok () ∧
            (a.withdraw amount).2.balance = a.balance - amount))) ∧
    (∀ e, (a.withdraw amount).1 = Except.error e → (a.withdraw amount).2 = a) := by
  by_cases hpos : 0 < amount
  · by_cases hbal : amount ≤ a.balance
    · rw [Account.withdraw_ok hpos hbal]
      refine ⟨fun _ => ⟨⟨fun he => ?_, fun hlt => ?_⟩, fun _ => ⟨rfl, rfl⟩⟩,
        fun e he => ?_⟩
      · simp at he
      · linarith
      · simp at he
    · rw [Account.withdraw_insufficient hpos (not_le.mp hbal)]
      exact ⟨fun _ => ⟨iff_of_true rfl (not_le.mp hbal), fun hle => absurd hle hbal⟩,
        fun e _ => rfl⟩
  · rw [Account.withdraw_nonpos (le_of_not_lt hpos)]
    exact ⟨fun hp => absurd hp hpos, fun e _ => rfl⟩

/-- Witness for C4: withdrawing 2 from a balance of 5 succeeds and leaves 3. -/
theorem C4_withdraw_spec_witness :
    0 < (2 : ℚ) ∧
      (2 : ℚ) ≤ ({ id := 1, owner := "A", type := "savings", balance := 5 } : Account).balance ∧
      (Account.withdraw { id := 1, owner := "A", type := "savings", balance := 5 } 2).1 =
        Except.ok () ∧
      (Account.withdraw { id := 1, owner := "A", type := "savings", balance := 5 } 2).2.balance =
        ({ id := 1, owner := "A", type := "savings", balance := 5 } : Account).balance - 2 :=
  ⟨by norm_num, by norm_num,
    ((C4_withdraw_spec { id := 1, owner := "A", type := "savings", balance := 5 } 2).1
      (by norm_num)).2 (by norm_num)⟩

/-- Claim C5: `deposit` of a positive amount increases the balance by
exactly that amount; a non-positive amount throws "Amount must be > 0"
and leaves the account unchanged. -/
theorem C5_deposit_spec (a : Account) (amount : ℚ) :
    (0 < amount →
      (a.deposit amount).1 = Except.ok () ∧
        (a.deposit amount).2.balance = a.balance + amount) ∧
    (amount ≤ 0 →
      (a.deposit amount).1 = Except.error "Amount must be > 0" ∧
        (a.deposit amount).2 = a) := by
  constructor
  · intro hpos
    rw [Account.deposit_pos hpos]
    exact ⟨rfl, rfl⟩
  · intro hnp
    rw [Account.deposit_nonpos hnp]
    exact ⟨rfl, rfl⟩

/-- Witness for C5: depositing 3 onto a balance of 5 succeeds and leaves 8. -/
theorem C5_deposit_spec_witness :
    0 < (3 : ℚ) ∧
      (Account.deposit { id := 1, owner := "A", type := "savings", balance := 5 } 3).1 =
        Except.ok () ∧
      (Account.deposit { id := 1, owner := "A", type := "savings", balance := 5 } 3).2.balance =
        ({ id := 1, owner := "A", type := "savings", balance := 5 } : Account).balance + 3 :=
  ⟨by norm_num,
    (C5_deposit_spec { id := 1, owner := "A", type := "savings", balance := 5 } 3).1
      (by norm_num)⟩

/-- Claim C6: applying interest with the strategy selected for the
account's type multiplies the balance by a fixed per-type constant:
new balance = old + old * r with r = 0.04 for "savings", 0.07 for
"fixed", 0.005 for "current". -/
theorem C6_interest_spec (a : Account) (r : ℚ)
    (h : (a.type = "savings" ∧ r = 0.04) ∨ (a.type = "fixed" ∧ r = 0.07) ∨
      (a.type = "current" ∧ r = 0.005)) :
    (a.applyInterest (strategyFor a.type)).balance = a.balance + a.balance * r := by
  rcases h with ⟨ht, hr⟩ | ⟨ht, hr⟩ | ⟨ht, hr⟩ <;> subst hr <;> rw [ht] <;> unfold strategyFor
  · rw [if_pos rfl]; rfl
  · rw [if_neg (by decide), if_pos rfl]; rfl
  · rw [if_neg (by decide), if_neg (by decide), if_pos rfl]; rfl

/-- Witness for C6: a savings account with balance 100 ends at 100 + 100 * 0.04. -/
theorem C6_interest_spec_witness :
    (({ id := 1, owner := "A", type := "savings", balance := 100 } : Account).type =
        "savings" ∧ (0.04 : ℚ) = 0.04) ∧
      (Account.applyInterest { id := 1, owner := "A", type := "savings", balance := 100 }
          (strategyFor "savings")).balance = 100 + 100 * (0.04 : ℚ) :=
  ⟨⟨rfl, rfl⟩,
    C6_interest_spec { id := 1, owner := "A", type := "savings", balance := 100 } 0.04
      (Or.inl ⟨rfl, rfl⟩)⟩

/-- Claim C9: `transferTo` throws "Cannot transfer to same account"
whenever source and target ids coincide, and whenever it throws for any
reason both accounts are unchanged. -/
theorem C9_transferTo_errors (a t : Account) (amount : ℚ) :
    (a.id = t.id →
      (a.transferTo t amount).1 = Except.error "Cannot transfer to same account") ∧
    (∀ e, (a.transferTo t amount).1 = Except.error e →
      (a.transferTo t amount).2 = (a, t)) := by
  by_cases hid : a.id = t.id
  · rw [Account.transferTo_same hid]
    exact ⟨fun _ => rfl, fun e _ => rfl⟩
  · refine ⟨fun h => absurd h hid, fun e he => ?_⟩
    by_cases hpos : 0 < amount
    · by_cases hbal : amount ≤ a.balance
      · rw [Account.transferTo_ok hid hpos hbal] at he
        simp at he
      · rw [Account.transferTo_insufficient hid hpos (not_le.mp hbal)]
    · rw [Account.transferTo_nonpos hid (le_of_not_lt hpos)]

/-- Witness for C9: a self-transfer on id 1 throws the same-account error,
and an insufficient transfer leaves both accounts unchanged. -/
theorem C9_transferTo_errors_witness :
    ({ id := 1, owner := "A", type := "savings", balance := 5 } : Account).id =
        ({ id := 1, owner := "A2", type := "current", balance := 7 } : Account).id ∧
      (Account.transferTo { id := 1, owner := "A", type := "savings", balance := 5 }
          { id := 1, owner := "A2", type := "current", balance := 7 } 2).1 =
        Except.error "Cannot transfer to same account" :=
  ⟨rfl,
    (C9_transferTo_errors { id := 1, owner := "A", type := "savings", balance := 5 }
      { id := 1, owner := "A2", type := "current", balance := 7 } 2).1 rfl⟩

/-- Claim C7: `executeCommand` pushes the command onto the undo stack
exactly when its `execute()` returns normally; when `execute()` throws,
the command stack is unchanged. -/
theorem C7_executeCommand_stack (c : Command) (s : AppState) :
    ((c.execute s.accounts).1 = Except.ok () →
      (executeCommand c s).commandStack = c :: s.commandStack) ∧
    (∀ e, (c.execute s.accounts).1 = Except.error e →
      (executeCommand c s).commandStack = s.commandStack) := by
  rcases hc : c.execute s.accounts with ⟨r, l1⟩
  cases r with
  | ok u =>
    refine ⟨fun _ => ?_, fun e he => ?_⟩
    · unfold executeCommand
      rw [hc]
    · simp at he
  | error e0 =>
    refine ⟨fun hk => ?_, fun e he => ?_⟩
    · simp at hk
    · unfold executeCommand
      rw [hc]

/-- Witness for C7: a deposit of 3 on an existing account succeeds and is
pushed onto the (initially empty) command stack. -/
theorem C7_executeCommand_stack_witness :
    (Command.execute (Command.deposit 1 3)
        ({ accounts := [{ id := 1, owner := "A", type := "savings", balance := 5 }],
           commandStack := [], nextAcctId := 1002 } : AppState).accounts).1 = Except.ok () ∧
      (executeCommand (Command.deposit 1 3)
        { accounts := [{ id := 1, owner := "A", type := "savings", balance := 5 }],
          commandStack := [], nextAcctId := 1002 }).commandStack = [Command.deposit 1 3] :=
  ⟨by norm_num [Command.execute, depositSt, findAcct, Account.deposit],
    (C7_executeCommand_stack (Command.deposit 1 3)
        { accounts := [{ id := 1, owner := "A", type := "savings", balance := 5 }],
          commandStack := [], nextAcctId := 1002 }).1
      (by norm_num [Command.execute, depositSt, findAcct, Account.deposit])⟩

/-- Claim C8: the undo action pops the top of the command stack and runs
that command's `undo()` (the pop survives even a throwing `undo()`); undo
on an empty stack changes neither accounts nor stack. -/
theorem C8_undo_spec (s : AppState) :
    (s.commandStack = [] → cmdUndo s = s) ∧
    (∀ c rest, s.commandStack = c :: rest →
      cmdUndo s =
        { accounts := (c.undo s.accounts).2, commandStack := rest,
          nextAcctId := s.nextAcctId }) := by
  obtain ⟨l, st, n⟩ := s
  cases st with
  | nil =>
    exact ⟨fun _ => rfl, fun c rest h => by simp at h⟩
  | cons c0 rest0 =>
    refine ⟨fun h => by simp at h, fun c rest h => ?_⟩
    simp only [List.cons.injEq] at h
    obtain ⟨h1, h2⟩ := h
    subst h1
    subst h2
    rfl

/-- Witness for C8: undoing with stack `[deposit 1 3]` pops the stack and
applies that command's `undo` to the accounts. -/
theorem C8_undo_spec_witness :
    ({ accounts := [{ id := 1, owner := "A", type := "savings", balance := 5 }],
        commandStack := [Command.deposit 1 3], nextAcctId := 1002 } : AppState).commandStack =
      Command.deposit 1 3 :: [] ∧
    cmdUndo
        { accounts := [{ id := 1, owner := "A", type := "savings", balance := 5 }],
          commandStack := [Command.deposit 1 3], nextAcctId := 1002 } =
      { accounts := (Command.undo (Command.deposit 1 3)
          [{ id := 1, owner := "A", type := "savings", balance := 5 }]).2,
        commandStack := [], nextAcctId := 1002 } :=
  ⟨rfl,
    (C8_undo_spec
        { accounts := [{ id := 1, owner := "A", type := "savings", balance := 5 }],
          commandStack := [Command.deposit 1 3], nextAcctId := 1002 }).2
      (Command.deposit 1 3) [] rfl⟩

/-- Claim C2: a command whose `execute()` succeeds on an account map in
which every balance is non-negative can be undone immediately: `undo()`
returns normally and restores the account map exactly as it was before
`execute()`. -/
theorem C2_undo_restores (c : Command) (l : List Account)
    (hnn : allBalancesNonneg l) (hok : (c.execute l).1 = Except.ok ()) :
    (c.undo (c.execute l).2).1 = Except.ok () ∧ (c.undo (c.execute l).2).2 = l := by
  cases c with
  | deposit i amt =>
    obtain ⟨a, hf, hpos⟩ := depositSt_ok_elim hok
    have hid : a.id = i := findAcct_id hf
    have ha : 0 ≤ a.balance := hnn a (findAcct_mem hf)
    have hex : Command.execute (Command.deposit i amt) l =
        (Except.ok (), replaceAcct i { a with balance := a.balance + amt } l) :=
      depositSt_of hf hpos
    rw [hex]
    have hf1 : findAcct i (replaceAcct i { a with balance := a.balance + amt } l) =
        some { a with balance := a.balance + amt } :=
      findAcct_replace_self (show a.id = i from hid) hf
    have hundo : Command.undo (Command.deposit i amt)
        (replaceAcct i { a with balance := a.balance + amt } l) = (Except.ok (), l) := by
      show withdrawSt i amt _ = _
      rw [withdrawSt_of hf1 hpos (show amt ≤ a.balance + amt by linarith)]
      rw [replaceAcct_replace_self
        (show ({ a with balance := a.balance + amt } : Account).id = i from hid)]
      rw [Account.setBalance_setBalance]
      rw [Account.setBalance_eq a _ (show a.balance + amt - amt = a.balance by ring)]
      rw [replaceAcct_find_self hf]
    rw [hundo]
    exact ⟨rfl, rfl⟩
  | withdraw i amt =>
    obtain ⟨a, hf, hpos, hbal⟩ := withdrawSt_ok_elim hok
    have hid : a.id = i := findAcct_id hf
    have hex : Command.execute (Command.withdraw i amt) l =
        (Except.ok (), replaceAcct i { a with balance := a.balance - amt } l) :=
      withdrawSt_of hf hpos hbal
    rw [hex]
    have hf1 : findAcct i (replaceAcct i { a with balance := a.balance - amt } l) =
        some { a with balance := a.balance - amt } :=
      findAcct_replace_self (show a.id = i from hid) hf
    have hundo : Command.undo (Command.withdraw i amt)
        (replaceAcct i { a with balance := a.balance - amt } l) = (Except.ok (), l) := by
      show depositSt i amt _ = _
      rw [depositSt_of hf1 hpos]
      rw [replaceAcct_replace_self
        (show ({ a with balance := a.balance - amt } : Account).id = i from hid)]
      rw [Account.setBalance_setBalance]
      rw [Account.setBalance_eq a _ (show a.balance - amt + amt = a.balance by ring)]
      rw [replaceAcct_find_self hf]
    rw [hundo]
    exact ⟨rfl, rfl⟩
  | transfer f t amt =>
    obtain ⟨a, b, hf, ht, hft, hpos, hbal⟩ := transferSt_ok_elim hok
    have haid : a.id = f := findAcct_id hf
    have hbid : b.id = t := findAcct_id ht
    have hb0 : 0 ≤ b.balance := hnn b (findAcct_mem ht)
    have hft1 : t ≠ f := fun h => hft h.symm
    have hex : Command.execute (Command.transfer f t amt) l =
        (Except.ok (), replaceAcct t { b with balance := b.balance + amt }
          (replaceAcct f { a with balance := a.balance - amt } l)) :=
      transferSt_of hf ht hft hpos hbal
    rw [hex]
    have hfb1 : findAcct t (replaceAcct t { b with balance := b.balance + amt }
        (replaceAcct f { a with balance := a.balance - amt } l)) =
        some { b with balance := b.balance + amt } := by
      apply findAcct_replace_self
        (show ({ b with balance := b.balance + amt } : Account).id = t from hbid)
      rw [findAcct_replace_other hft
        (show ({ a with balance := a.balance - amt } : Account).id = f from haid)]
      exact ht
    have hw : withdrawSt t amt (replaceAcct t { b with balance := b.balance + amt }
          (replaceAcct f { a with balance := a.balance - amt } l)) =
        (Except.ok (), replaceAcct t b (replaceAcct t { b with balance := b.balance + amt }
          (replaceAcct f { a with balance := a.balance - amt } l))) := by
      rw [withdrawSt_of hfb1 hpos (show amt ≤ b.balance + amt by linarith)]
      rw [Account.setBalance_setBalance]
      rw [Account.setBalance_eq b _ (show b.balance + amt - amt = b.balance by ring)]
    have hl3 : replaceAcct t b (replaceAcct t { b with balance := b.balance + amt }
        (replaceAcct f { a with balance := a.balance - amt } l)) =
        replaceAcct f { a with balance := a.balance - amt } l := by
      rw [replaceAcct_replace_self
        (show ({ b with balance := b.balance + amt } : Account).id = t from hbid)]
      rw [replaceAcct_comm hft1 (show b.id = t from hbid)
        (show ({ a with balance := a.balance - amt } : Account).id = f from haid)]
      rw [replaceAcct_find_self ht]
    have hfa1 : findAcct f (replaceAcct f { a with balance := a.balance - amt } l) =
        some { a with balance := a.balance - amt } :=
      findAcct_replace_self (show a.id = f from haid) hf
    have hd : depositSt f amt (replaceAcct f { a with balance := a.balance - amt } l) =
        (Except.ok (), l) := by
      rw [depositSt_of hfa1 hpos]
      rw [replaceAcct_replace_self
        (show ({ a with balance := a.balance - amt } : Account).id = f from haid)]
      rw [Account.setBalance_setBalance]
      rw [Account.setBalance_eq a _ (show a.balance - amt + amt = a.balance by ring)]
      rw [replaceAcct_find_self hf]
    have hundo : Command.undo (Command.transfer f t amt)
        (replaceAcct t { b with balance := b.balance + amt }
          (replaceAcct f { a with balance := a.balance - amt } l)) = (Except.ok (), l) := by
      simp only [Command.undo]
      rw [hw]
      dsimp only
      rw [hl3, hd]
    rw [hundo]
    exact ⟨rfl, rfl⟩

/-- Witness for C2: a transfer of 3 from account 1 (balance 10) to
account 2 (balance 4) executes successfully and its undo restores the
original map. -/
theorem C2_undo_restores_witness :
    allBalancesNonneg [{ id := 1, owner := "A", type := "savings", balance := 10 },
        { id := 2, owner := "B", type := "current", balance := 4 }] ∧
      (Command.execute (Command.transfer 1 2 3)
        [{ id := 1, owner := "A", type := "savings", balance := 10 },
         { id := 2, owner := "B", type := "current", balance := 4 }]).1 = Except.ok () ∧
      (Command.undo (Command.transfer 1 2 3)
          (Command.execute (Command.transfer 1 2 3)
            [{ id := 1, owner := "A", type := "savings", balance := 10 },
             { id := 2, owner := "B", type := "current", balance := 4 }]).2).2 =
        [{ id := 1, owner := "A", type := "savings", balance := 10 },
         { id := 2, owner := "B", type := "current", balance := 4 }] :=
  ⟨by norm_num [allBalancesNonneg],
    by norm_num [Command.execute, transferSt, findAcct, Account.transferTo,
      Account.withdraw, Account.deposit],
    (C2_undo_restores (Command.transfer 1 2 3)
        [{ id := 1, owner := "A", type := "savings", balance := 10 },
         { id := 2, owner := "B", type := "current", balance := 4 }]
        (by norm_num [allBalancesNonneg])
        (by norm_num [Command.execute, transferSt, findAcct, Account.transferTo,
          Account.withdraw, Account.deposit])).2⟩

/-- Claim C10: a successful transfer leaves the sum of the two involved
balances unchanged and touches no other account. -/
theorem C10_transfer_conservation (f t : Nat) (amount : ℚ) (l : List Account)
    (h : (transferSt f t amount l).1 = Except.ok ()) :
    (∃ ab tb ab1 tb1,
      balanceAt f l = some ab ∧ balanceAt t l = some tb ∧
        balanceAt f (transferSt f t amount l).2 = some ab1 ∧
        balanceAt t (transferSt f t amount l).2 = some tb1 ∧
        ab1 + tb1 = ab + tb) ∧
    (∀ i, i ≠ f → i ≠ t → findAcct i (transferSt f t amount l).2 = findAcct i l) := by
  obtain ⟨a, b, hf, ht, hft, hpos, hbal⟩ := transferSt_ok_elim h
  have haid : a.id = f := findAcct_id hf
  have hbid : b.id = t := findAcct_id ht
  rw [transferSt_of hf ht hft hpos hbal]
  dsimp only
  constructor
  · refine ⟨a.balance, b.balance, a.balance - amount, b.balance + amount, ?_, ?_, ?_, ?_,
      by ring⟩
    · unfold balanceAt
      rw [hf]
      rfl
    · unfold balanceAt
      rw [ht]
      rfl
    · unfold balanceAt
      rw [findAcct_replace_other (Ne.symm hft)
        (show ({ b with balance := b.balance + amount } : Account).id = t from hbid)]
      rw [findAcct_replace_self
        (show ({ a with balance := a.balance - amount } : Account).id = f from haid) hf]
      rfl
    · unfold balanceAt
      rw [findAcct_replace_self
        (show ({ b with balance := b.balance + amount } : Account).id = t from hbid)
        (by rw [findAcct_replace_other hft
              (show ({ a with balance := a.balance - amount } : Account).id = f from haid)]
            exact ht)]
      rfl
  · intro i hif hit
    rw [findAcct_replace_other (Ne.symm hit)
      (show ({ b with balance := b.balance + amount } : Account).id = t from hbid)]
    rw [findAcct_replace_other (Ne.symm hif)
      (show ({ a with balance := a.balance - amount } : Account).id = f from haid)]

/-- Witness for C10: the transfer of 3 from account 1 to account 2
succeeds and account 3 is untouched. -/
theorem C10_transfer_conservation_witness :
    (transferSt 1 2 3
        [{ id := 1, owner := "A", type := "savings", balance := 10 },
         { id := 2, owner := "B", type := "current", balance := 4 },
         { id := 3, owner := "C", type := "fixed", balance := 7 }]).1 = Except.ok () ∧
      (∀ i, i ≠ 1 → i ≠ 2 →
        findAcct i (transferSt 1 2 3
          [{ id := 1, owner := "A", type := "savings", balance := 10 },
           { id := 2, owner := "B", type := "current", balance := 4 },
           { id := 3, owner := "C", type := "fixed", balance := 7 }]).2 =
          findAcct i
            [{ id := 1, owner := "A", type := "savings", balance := 10 },
             { id := 2, owner := "B", type := "current", balance := 4 },
             { id := 3, owner := "C", type := "fixed", balance := 7 }]) :=
  ⟨by norm_num [transferSt, findAcct, Account.transferTo, Account.withdraw, Account.deposit],
    (C10_transfer_conservation 1 2 3
        [{ id := 1, owner := "A", type := "savings", balance := 10 },
         { id := 2, owner := "B", type := "current", balance := 4 },
         { id := 3, owner := "C", type := "fixed", balance := 7 }]
        (by norm_num [transferSt, findAcct, Account.transferTo, Account.withdraw,
          Account.deposit])).2⟩

theorem allBalancesNonneg_replace {l : List Account} {i : Nat} {x : Account}
    (hnn : allBalancesNonneg l) (hx : 0 ≤ x.balance) :
    allBalancesNonneg (replaceAcct i x l) := by
  intro b hb
  rcases mem_replaceAcct hb with h | h
  · exact hnn b h
  · rw [h]
    exact hx

theorem depositSt_nonneg {i : Nat} {amt : ℚ} {l : List Account}
    (hnn : allBalancesNonneg l) : allBalancesNonneg (depositSt i amt l).2 := by
  unfold depositSt
  cases hf : findAcct i l with
  | none => exact hnn
  | some a =>
    dsimp only
    by_cases hpos : 0 < amt
    · rw [Account.deposit_pos hpos]
      refine allBalancesNonneg_replace hnn ?_
      have := hnn a (findAcct_mem hf)
      show 0 ≤ a.balance + amt
      linarith
    · rw [Account.deposit_nonpos (le_of_not_lt hpos)]
      exact hnn

theorem withdrawSt_nonneg {i : Nat} {amt : ℚ} {l : List Account}
    (hnn : allBalancesNonneg l) : allBalancesNonneg (withdrawSt i amt l).2 := by
  unfold withdrawSt
  cases hf : findAcct i l with
  | none => exact hnn
  | some a =>
    dsimp only
    by_cases hpos : 0 < amt
    · by_cases hbal : amt ≤ a.balance
      · rw [Account.withdraw_ok hpos hbal]
        refine allBalancesNonneg_replace hnn ?_
        show 0 ≤ a.balance - amt
        linarith
      · rw [Account.withdraw_insufficient hpos (not_le.mp hbal)]
        exact hnn
    · rw [Account.withdraw_nonpos (le_of_not_lt hpos)]
      exact hnn

theorem transferSt_nonneg {f t : Nat} {amt : ℚ} {l : List Account}
    (hnn : allBalancesNonneg l) : allBalancesNonneg (transferSt f t amt l).2 := by
  unfold transferSt
  cases hf : findAcct f l with
  | none => exact hnn
  | some a =>
    cases ht : findAcct t l with
    | none => exact hnn
    | some b =>
      dsimp only
      have ha := hnn a (findAcct_mem hf)
      have hb := hnn b (findAcct_mem ht)
      by_cases hid : a.id = b.id
      · rw [Account.transferTo_same hid]
        exact allBalancesNonneg_replace (allBalancesNonneg_replace hnn ha) hb
      · by_cases hpos : 0 < amt
        · by_cases hbal : amt ≤ a.balance
          · rw [Account.transferTo_ok hid hpos hbal]
            refine allBalancesNonneg_replace (allBalancesNonneg_replace hnn ?_) ?_
            · show 0 ≤ a.balance - amt
              linarith
            · show 0 ≤ b.balance + amt
              linarith
          · rw [Account.transferTo_insufficient hid hpos (not_le.mp hbal)]
            exact allBalancesNonneg_replace (allBalancesNonneg_replace hnn ha) hb
        · rw [Account.transferTo_nonpos hid (le_of_not_lt hpos)]
          exact allBalancesNonneg_replace (allBalancesNonneg_replace hnn ha) hb

theorem execute_nonneg (c : Command) {l : List Account}
    (hnn : allBalancesNonneg l) : allBalancesNonneg (c.execute l).2 := by
  cases c with
  | deposit i amt => exact depositSt_nonneg hnn
  | withdraw i amt => exact withdrawSt_nonneg hnn
  | transfer f t amt => exact transferSt_nonneg hnn

theorem undo_nonneg (c : Command) {l : List Account}
    (hnn : allBalancesNonneg l) : allBalancesNonneg (c.undo l).2 := by
  cases c with
  | deposit i amt => exact withdrawSt_nonneg hnn
  | withdraw i amt => exact depositSt_nonneg hnn
  | transfer f t amt =>
    show allBalancesNonneg (match withdrawSt t amt l with
      | (Except.error e, l1) => (Except.error e, l1)
      | (Except.ok _, l1) => depositSt f amt l1).2
    rcases hw : withdrawSt t amt l with ⟨r, l1⟩
    have h1 : allBalancesNonneg l1 := by
      have h2 := @withdrawSt_nonneg t amt l hnn
      rw [hw] at h2
      exact h2
    cases r with
    | ok u => exact depositSt_nonneg h1
    | error e => exact h1

theorem strategyFor_nonneg (type : String) {b : ℚ} (hb : 0 ≤ b) :
    0 ≤ b + strategyFor type b := by
  unfold strategyFor
  split_ifs <;>
    simp only [SavingsInterest.calculate, FixedInterest.calculate,
      CurrentInterest.calculate, InterestStrategy.calculate] <;>
    nlinarith

theorem step_nonneg (o : Op) (s : AppState) (ho : o.createNonneg)
    (hnn : allBalancesNonneg s.accounts) :
    allBalancesNonneg (step o s).accounts := by
  cases o with
  | create name type_ bal =>
    show allBalancesNonneg (createAcct name type_ bal s).accounts
    unfold createAcct
    by_cases hname : name = ""
    · rw [if_pos hname]
      exact hnn
    · rw [if_neg hname]
      intro a ha
      rcases List.mem_append.mp ha with h | h
      · exact hnn a h
      · simp only [List.mem_singleton] at h
        rw [h]
        exact ho
  | command c =>
    show allBalancesNonneg (executeCommand c s).accounts
    unfold executeCommand
    rcases hc : Command.execute c s.accounts with ⟨r, l1⟩
    have h1 : allBalancesNonneg l1 := by
      have h2 := execute_nonneg c hnn
      rw [hc] at h2
      exact h2
    cases r with
    | ok u => exact h1
    | error e => exact h1
  | interest i =>
    show allBalancesNonneg (applyInterestOn i s).accounts
    unfold applyInterestOn
    cases hf : findAcct i s.accounts with
    | none => exact hnn
    | some a =>
      dsimp only
      refine allBalancesNonneg_replace hnn ?_
      show 0 ≤ a.balance + strategyFor a.type a.balance
      exact strategyFor_nonneg _ (hnn a (findAcct_mem hf))
  | undo =>
    show allBalancesNonneg (cmdUndo s).accounts
    unfold cmdUndo
    cases hst : s.commandStack with
    | nil => exact hnn
    | cons c rest =>
      dsimp only
      rcases hu : Command.undo c s.accounts with ⟨r, l1⟩
      have h1 : allBalancesNonneg l1 := by
        have h2 := undo_nonneg c hnn
        rw [hu] at h2
        exact h2
      exact h1

theorem run_nonneg (ops : List Op) (s : AppState)
    (hs : allBalancesNonneg s.accounts) (h : ∀ o ∈ ops, o.createNonneg) :
    allBalancesNonneg (run ops s).accounts := by
  induction ops generalizing s with
  | nil => exact hs
  | cons o ops ih =>
    exact ih (step o s)
      (step_nonneg o s (h o (List.mem_cons_self o ops)) hs)
      (fun o1 ho1 => h o1 (List.mem_cons_of_mem _ ho1))

/-- Counterexample to claim C1 as stated: the `create-acct` handler parses
the initial-balance field with `parseFloat(...) || 0` and never checks the
sign, so creating an account with initial balance -5 immediately yields a
negative balance. -/
theorem C1_counterexample :
    balanceAt 1001 (run [Op.create "Alice" "savings" (-5)] initState).accounts =
        some (-5) ∧ ((-5 : ℚ) < 0) :=
  ⟨rfl, by norm_num⟩

/-- Claim C1 (amended): provided every account creation supplies a
non-negative initial balance, every sequence of public operations
(creation, deposit, withdraw, transfer, interest, undo) from the initial
state keeps every account's balance non-negative. -/
theorem C1_balances_nonneg (ops : List Op) (h : ∀ o ∈ ops, o.createNonneg) :
    allBalancesNonneg (run ops initState).accounts :=
  run_nonneg ops initState (fun a ha => absurd ha (List.not_mem_nil a)) h

/-- Witness for C1 (amended): a create followed by a deposit, a withdraw
beyond the balance (rejected) and an undo keeps all balances ≥ 0. -/
theorem C1_balances_nonneg_witness :
    (∀ o ∈ [Op.create "A" "savings" 5, Op.command (Command.deposit 1001 3),
        Op.command (Command.withdraw 1001 100), Op.undo], o.createNonneg) ∧
      allBalancesNonneg (run [Op.create "A" "savings" 5,
        Op.command (Command.deposit 1001 3),
        Op.command (Command.withdraw 1001 100), Op.undo] initState).accounts :=
  ⟨by
    intro o ho
    fin_cases ho
    · show (0 : ℚ) ≤ 5
      norm_num
    · exact trivial
    · exact trivial
    · exact trivial,
    C1_balances_nonneg _ (by
      intro o ho
      fin_cases ho
      · show (0 : ℚ) ≤ 5
        norm_num
      · exact trivial
      · exact trivial
      · exact trivial)⟩
